import Mathlib

/-!
Verification of the tool-provisioning engine in `build/tools/tools.go`
(catalog lookup, installed-state check, installer with cleanup, archive
extractor, binary publisher, binary materializer).

Paths are modelled as lists of segments (`Path := List String`); strings
that the code manipulates (binary destinations such as `"bin/go"`, and
relative symlink targets such as `"../go-1.20.1/go/bin/go"`) are split into
segments by `segs`, a model of splitting on the `/` separator.
-/

namespace Crust

/-- Assoc-list lookup (model of Go map read: first binding for the key). -/
def lookupAL {α β : Type} [DecidableEq α] : List (α × β) → α → Option β
  | [], _ => none
  | (k, v) :: t, x => if x = k then some v else lookupAL t x

/-- Assoc-list removal of a key (model of `os.Remove` on one path). -/
def eraseAL {α β : Type} [DecidableEq α] : List (α × β) → α → List (α × β)
  | [], _ => []
  | hd :: t, x => if hd.1 = x then eraseAL t x else hd :: eraseAL t x

/-- Assoc-list update: bind `k` to `v`, dropping any previous binding. -/
def setAL {α β : Type} [DecidableEq α] (l : List (α × β)) (k : α) (v : β) :
    List (α × β) :=
  (k, v) :: eraseAL l k

/-- Split a character list at `/` separators.  Always returns at least one
(possibly empty) segment, like Go's `strings.Split(s, "/")`. -/
def segsCore : List Char → List (List Char)
  | [] => [[]]
  | c :: rest =>
    let r := segsCore rest
    if c = '/' then [] :: r
    else
      match r with
      | [] => [[c]]
      | s :: ss => (c :: s) :: ss

/-- Segments of a string path: model of splitting on `/`. -/
def segs (s : String) : List String :=
  (segsCore s.toList).map String.mk

/-- Number of `/` characters in a string: model of `strings.Count(s, "/")`. -/
def countSlash (s : String) : Nat :=
  s.toList.count '/'

/-- Join character-list segments with `/` separators (inverse of `segsCore`
on slash-free segments). -/
def joinSlash : List (List Char) → List Char
  | [] => []
  | [x] => x
  | x :: xs => x ++ '/' :: joinSlash xs

/-- Model of `strings.Repeat(s, n)`: `n` concatenated copies of `s`. -/
def goRepeat (s : String) (n : Nat) : String :=
  String.mk ((List.replicate n s.toList).flatten)

/-- Model of Go's `filepath.Join`: join the elements with `/`, then clean the
result.  Cleaning drops empty segments; the `..`-collapsing part of
`filepath.Clean` is the identity on every input used by this code (the only
`..` segments produced are leading ones, which `Clean` keeps). -/
def filepathJoin (elems : List String) : String :=
  String.mk (joinSlash (((elems.map String.toList).flatMap segsCore).filter (· ≠ [])))

/-- An absolute path, as a list of segments below the filesystem root. -/
abbrev Path := List String

/-- Resolve a relative segment list against a base directory: `..` pops the
last segment, any other segment is appended (model of symlink-target
resolution done by `filepath.EvalSymlinks`). -/
def resolveRel (base : Path) (rel : List String) : Path :=
  rel.foldl (fun acc s => if s = ".." then acc.dropLast else acc ++ [s]) base

-- ---------------------------------------------------------------------------
-- Data model (tools.go lines 228-274)
-- ---------------------------------------------------------------------------

/-- `Name is the type used for defining tool names.` -/
abbrev Name := String

/-- `Platform defines platform to install tool on.` -/
structure Platform where
  OS : String
  Arch : String
  deriving DecidableEq

/-- `func (p Platform) String() string { return p.OS + "." + p.Arch }` -/
def Platform.str (p : Platform) : String :=
  p.OS ++ "." ++ p.Arch

/-- `const dockerOS = "docker"` -/
def dockerOS : String := "docker"

/-- `Source represents source where tool is fetched from.` -/
structure Source where
  URL : String
  Hash : String
  Binaries : List (String × String) := []
  deriving DecidableEq

/-- `Sources is the map of sources.` -/
abbrev Sources := List (Platform × Source)

/-- `Tool represents tool to be installed.` -/
structure Tool where
  Version : String
  ForDocker : Bool := false
  ForLocal : Bool := false
  Sources : Sources
  Binaries : List (String × String) := []
  deriving DecidableEq

def linuxAMD64 : Platform := ⟨"linux", "amd64"⟩
def darwinAMD64 : Platform := ⟨"darwin", "amd64"⟩
def darwinARM64 : Platform := ⟨"darwin", "arm64"⟩
def dockerAMD64 : Platform := ⟨dockerOS, "amd64"⟩
def dockerARM64 : Platform := ⟨dockerOS, "arm64"⟩

/-- `DockerPlatform is the docker platform for current arch.`  The host
architecture (`runtime.GOARCH`) is a parameter of the model. -/
def DockerPlatform (goarch : String) : Platform :=
  ⟨dockerOS, goarch⟩

/-- The static tool catalog (`var tools = map[Name]Tool{...}`), as an
association list. -/
def tools : List (Name × Tool) := [
  ("go", {
    Version := "1.20.1",
    ForLocal := true,
    Sources := [
      (linuxAMD64, {
        URL := "https://go.dev/dl/go1.20.1.linux-amd64.tar.gz",
        Hash := "sha256:000a5b1fca4f75895f78befeb2eecf10bfff3c428597f3f1e69133b63b911b02" }),
      (darwinAMD64, {
        URL := "https://go.dev/dl/go1.20.1.darwin-amd64.tar.gz",
        Hash := "sha256:a300a45e801ab459f3008aae5bb9efbe9a6de9bcd12388f5ca9bbd14f70236de" }),
      (darwinARM64, {
        URL := "https://go.dev/dl/go1.20.1.darwin-arm64.tar.gz",
        Hash := "sha256:f1a8e06c7f1ba1c008313577f3f58132eb166a41ceb95ce6e9af30bc5a3efca4" })],
    Binaries := [
      ("bin/go", "go/bin/go"),
      ("bin/gofmt", "go/bin/gofmt")] }),
  ("golangci", {
    Version := "1.51.2",
    ForLocal := true,
    Sources := [
      (linuxAMD64, {
        URL := "https://github.com/golangci/golangci-lint/releases/download/v1.51.2/golangci-lint-1.51.2-linux-amd64.tar.gz",
        Hash := "sha256:4de479eb9d9bc29da51aec1834e7c255b333723d38dbd56781c68e5dddc6a90b",
        Binaries := [("bin/golangci-lint", "golangci-lint-1.51.2-linux-amd64/golangci-lint")] }),
      (darwinAMD64, {
        URL := "https://github.com/golangci/golangci-lint/releases/download/v1.51.2/golangci-lint-1.51.2-darwin-amd64.tar.gz",
        Hash := "sha256:0549cbaa2df451cf3a2011a9d73a9cb127784d26749d9cd14c9f4818af104d44",
        Binaries := [("bin/golangci-lint", "golangci-lint-1.51.2-darwin-amd64/golangci-lint")] }),
      (darwinARM64, {
        URL := "https://github.com/golangci/golangci-lint/releases/download/v1.51.2/golangci-lint-1.51.2-darwin-arm64.tar.gz",
        Hash := "sha256:36e69882205a0e42a63ad57ec3015639c11051e03f0beb9cf7949c6451408960",
        Binaries := [("bin/golangci-lint", "golangci-lint-1.51.2-darwin-arm64/golangci-lint")] })] }),
  ("ignite", {
    Version := "0.23.0",
    ForLocal := true,
    Sources := [
      (linuxAMD64, {
        URL := "https://github.com/ignite/cli/releases/download/v0.23.0/ignite_0.23.0_linux_amd64.tar.gz",
        Hash := "sha256:915a96eb366fbf9c353af32d0ddb01796a30b86343ac77d613cc8a8af3dd395a" }),
      (darwinAMD64, {
        URL := "https://github.com/ignite/cli/releases/download/v0.23.0/ignite_0.23.0_darwin_amd64.tar.gz",
        Hash := "sha256:b9ca67a70f4d1b43609c4289a7e83dc2174754d35f30fb43f1518c0434361c4e" }),
      (darwinARM64, {
        URL := "https://github.com/ignite/cli/releases/download/v0.23.0/ignite_0.23.0_darwin_arm64.tar.gz",
        Hash := "sha256:daefd4ac83e3bb384cf97a2ff8cc6e81427f74e2c81c567fd0507fce647146ec" })],
    Binaries := [("bin/ignite", "ignite")] }),
  ("cosmovisor", {
    Version := "1.3.0",
    ForDocker := true,
    Sources := [
      (dockerAMD64, {
        URL := "https://github.com/cosmos/cosmos-sdk/releases/download/cosmovisor%2Fv1.3.0/cosmovisor-v1.3.0-linux-amd64.tar.gz",
        Hash := "sha256:34d7c9fbaa03f49b8278e13768d0fd82e28101dfa9625e25379c36a86d558826" }),
      (dockerARM64, {
        URL := "https://github.com/cosmos/cosmos-sdk/releases/download/cosmovisor%2Fv1.3.0/cosmovisor-v1.3.0-linux-arm64.tar.gz",
        Hash := "sha256:8d7de2a18eb2cc4a749efbdbe060ecb34c3e5ca12354b7118a6966fa46d3a33d" })],
    Binaries := [("bin/cosmovisor", "cosmovisor")] }),
  ("libwasmvm_muslc", {
    Version := "v1.1.1",
    ForDocker := true,
    Sources := [
      (dockerAMD64, {
        URL := "https://github.com/CosmWasm/wasmvm/releases/download/v1.1.1/libwasmvm_muslc.x86_64.a",
        Hash := "sha256:6e4de7ba9bad4ae9679c7f9ecf7e283dd0160e71567c6a7be6ae47c81ebe7f32",
        Binaries := [("lib/libwasmvm_muslc.a", "libwasmvm_muslc.x86_64.a")] }),
      (dockerARM64, {
        URL := "https://github.com/CosmWasm/wasmvm/releases/download/v1.1.1/libwasmvm_muslc.aarch64.a",
        Hash := "sha256:9ecb037336bd56076573dc18c26631a9d2099a7f2b40dc04b6cae31ffb4c8f9a",
        Binaries := [("lib/libwasmvm_muslc.a", "libwasmvm_muslc.aarch64.a")] })] }),
  ("gaia", {
    Version := "v7.1.0",
    ForDocker := true,
    Sources := [
      (dockerAMD64, {
        URL := "https://github.com/cosmos/gaia/releases/download/v7.1.0/gaiad-v7.1.0-linux-amd64",
        Hash := "sha256:7a24fd361b0259878a5aeb1f890ca0df20be1a875e7fc94aaef36eec4edf99c4",
        Binaries := [("bin/gaiad", "gaiad-v7.1.0-linux-amd64")] }),
      (dockerARM64, {
        URL := "https://github.com/cosmos/gaia/releases/download/v7.1.0/gaiad-v7.1.0-linux-arm64",
        Hash := "sha256:4ac73edab3a967af4af2549d48ff8c7600f73e103766dc97f2eeff35fd6b8c50",
        Binaries := [("bin/gaiad", "gaiad-v7.1.0-linux-arm64")] })] }),
  ("relayer", {
    Version := "v2.2.0",
    ForDocker := true,
    Sources := [
      (dockerAMD64, {
        URL := "https://github.com/cosmos/relayer/releases/download/v2.2.0/Cosmos.Relayer_2.2.0_linux_amd64.tar.gz",
        Hash := "sha256:d0d987ee2f1eedfec3523edad5abcc282521952e438cfe4eb19999a8fff465bd",
        Binaries := [("bin/relayer", "Cosmos Relayer_2.2.0_linux_amd64/rly")] }),
      (dockerARM64, {
        URL := "https://github.com/cosmos/relayer/releases/download/v2.2.0/Cosmos.Relayer_2.2.0_linux_arm64.tar.gz",
        Hash := "sha256:eacdffe4499021eb444857255dd3d852d574014f98fe80c26ae54ad056056fc4",
        Binaries := [("bin/relayer", "Cosmos Relayer_2.2.0_linux_arm64/rly")] })] }),
  ("cored-v0.1.1", {
    Version := "v0.1.1",
    ForDocker := true,
    Sources := [
      (dockerAMD64, {
        URL := "https://github.com/CoreumFoundation/coreum/releases/download/v0.1.1/cored-linux-amd64",
        Hash := "sha256:21db2ea1b31d9e8202e0d11f2bee0de78d2e677c07fd75a7db1f3958bf49146c",
        Binaries := [("bin/cored-v0.1.1", "cored-linux-amd64")] }),
      (dockerARM64, {
        URL := "https://github.com/CoreumFoundation/coreum/releases/download/v0.1.1/cored-linux-arm64",
        Hash := "sha256:7d383d1a1bc9185677b25c05ebbe01cf20dd6c779ca4301065359ea6e3bcefa3",
        Binaries := [("bin/cored-v0.1.1", "cored-linux-arm64")] })] })]

/-- Model of `lo.Assign(a, b)` restricted to two maps: the union of `a` and
`b` in which, on any key present in both, the binding of `b` (the map
assigned later) wins.  Used by both `ensurePlatform` (line 315) and
`install` (line 391) as `lo.Assign(info.Binaries, source.Binaries)`. -/
def loAssign (a b : List (String × String)) : List (String × String) :=
  a.filter (fun p => (lookupAL b p.1).isNone) ++ b

-- ---------------------------------------------------------------------------
-- Filesystem model for the installer / checker / materializer
-- ---------------------------------------------------------------------------

/-- Target recorded in a symlink: an absolute path, or a raw relative
string (resolved against the link's own directory when followed). -/
inductive LinkTarget where
  | abs (p : Path)
  | rel (s : String)
  deriving DecidableEq

/-- Filesystem state visible to `ensurePlatform`, `install` and
`CopyToolBinaries`: existing directories, symlinks (path of the link with
its recorded target), regular files with their permission mode, and file
contents. -/
structure FS where
  dirs : List Path := []
  links : List (Path × LinkTarget) := []
  modes : List (Path × Nat) := []
  contents : List (Path × String) := []
  deriving DecidableEq

/-- Model of `filepath.EvalSymlinks`: follow the (single-level) symlink at
`p` if one exists, resolving a relative target against the link's directory;
fail if the result (or `p` itself, when it is no link) is not an existing
file. -/
def evalSymlinks (fs : FS) (p : Path) : Option Path :=
  match lookupAL fs.links p with
  | some (.abs q) => if (lookupAL fs.modes q).isSome then some q else none
  | some (.rel s) =>
    let q := resolveRel p.dropLast (segs s)
    if (lookupAL fs.modes q).isSome then some q else none
  | none => if (lookupAL fs.modes p).isSome then some p else none

/-- Model of `os.RemoveAll(td)`: drop every directory, link, file and
content entry at `td` or below it. -/
def removeAllFS (td : Path) (fs : FS) : FS where
  dirs := fs.dirs.filter (fun p => !(td.isPrefixOf p))
  links := fs.links.filter (fun pr => !(td.isPrefixOf pr.1))
  modes := fs.modes.filter (fun pr => !(td.isPrefixOf pr.1))
  contents := fs.contents.filter (fun pr => !(td.isPrefixOf pr.1))

/-- Model of `os.MkdirAll(p, mode)`: record the directory (modes of cache
directories play no role in the claims). -/
def addDir (p : Path) (fs : FS) : FS :=
  { fs with dirs := if p ∈ fs.dirs then fs.dirs else p :: fs.dirs }

/-- The version-qualified tool directory
`filepath.Join(CacheDir(), platform.String(), string(name)+"-"+info.Version)`.
The code's `toolDir` re-reads `info` from the catalog (panicking when the
tool is undefined); its callers always pass a defined tool, so the model
takes `info` directly.  `cacheRoot` stands for `CacheDir()`
(`os.UserCacheDir() + "/crust"`). -/
def toolDirPath (cacheRoot : Path) (name : Name) (info : Tool) (platform : Platform) : Path :=
  cacheRoot ++ [platform.str, name ++ "-" ++ info.Version]

/-- Expected artifact path `toolDir + "/" + src` (absolute, since the cache
root is). -/
def srcPathOf (cacheRoot : Path) (name : Name) (info : Tool) (platform : Platform)
    (src : String) : Path :=
  toolDirPath cacheRoot name info platform ++ segs src

/-- Destination path of a published binary: nested under
`CacheDir()/platform` for docker platforms, relative to the working
directory (`cwd`) otherwise. -/
def dstPathOf (cacheRoot cwd : Path) (platform : Platform) (dst : String) : Path :=
  if platform.OS = dockerOS then cacheRoot ++ [platform.str] ++ segs dst
  else cwd ++ segs dst

/-- Relative symlink target created for docker platforms (line 400):
`filepath.Join(strings.Repeat("../", strings.Count(dst, "/")), name+"-"+version, src)`. -/
def srcLinkPath (name : Name) (info : Tool) (dst src : String) : String :=
  filepathJoin [goRepeat "../" (countSlash dst), name ++ "-" ++ info.Version, src]

/-- One iteration of the `ensurePlatform` check loop (lines 315-342) for the
binding `b = (dst, src)`: the destination must resolve through symlinks to
the expected artifact path, and the resolved file's mode must satisfy
`mode & 0o700 != 0`. -/
def checkBinding (cacheRoot cwd : Path) (name : Name) (info : Tool) (platform : Platform)
    (fs : FS) (b : String × String) : Bool :=
  let srcPath := srcPathOf cacheRoot name info platform b.2
  let dstPath := dstPathOf cacheRoot cwd platform b.1
  match evalSymlinks fs dstPath with
  | none => false
  | some realPath =>
    decide (realPath = srcPath) &&
      (match lookupAL fs.modes realPath with
       | none => false
       | some m => decide (m &&& 0o700 ≠ 0))

/-- Errors returned (as Go `error` values) by `ensurePlatform`/`install`. -/
inductive InstallErr where
  | toolNotDefined (tool : String)
  | transport (msg : String)
  | saveFailed (msg : String)
  | checksumMismatch (tool expected actual url : String)
  deriving DecidableEq

/-- The message carried by each returned error, as formatted by
`errors.Errorf` in the code. -/
def renderInstallErr : InstallErr → String
  | .toolNotDefined t => "tool " ++ t ++ " is not defined"
  | .transport m => m
  | .saveFailed m => m
  | .checksumMismatch t e a u =>
      "checksum does not match for tool " ++ t ++ ", expected: " ++ e ++
        ", actual: " ++ a ++ ", url: " ++ u

/-- Result of a call: normal return of `nil`, normal return of an error, or
a panic (Go `panic`, which unwinds instead of returning). -/
inductive Outcome where
  | ok
  | err (e : InstallErr)
  | panicked (msg : String)
  deriving DecidableEq

/-- Environment of one `install` attempt: injected transport failure,
injected `save` (download/extract) failure, the file modes `save` writes
below the tool directory when it succeeds, and the hex digest computed from
the streamed payload (`fmt.Sprintf("%02x", hasher.Sum(nil))`). -/
structure InstallEnv where
  httpErr : Option String := none
  saveErr : Option String := none
  savedFiles : List (Path × Nat) := []
  actualChecksum : String := ""
  deriving DecidableEq

/-- Result of `hasher(hashStr)` (lines 413-430): the expected lower-cased
checksum, or a panic for a malformed/unsupported hash string. -/
inductive HashSpec where
  | ok (checksum : String)
  | panicMsg (msg : String)
  deriving DecidableEq

/-- Split at the first `:`.  Models `strings.SplitN(hashStr, ":", 2)`:
`none` when the string has no `:` (one part, so `len(parts) != 2`). -/
def splitColon : List Char → Option (List Char × List Char)
  | [] => none
  | c :: t =>
    if c = ':' then some ([], t)
    else
      match splitColon t with
      | none => none
      | some (a, b) => some (c :: a, b)

/-- Model of `hasher` (lines 413-430): split the hash string at the first
`:`; panic when there is no algorithm part or it is not `sha256`; otherwise
return the checksum part lower-cased (`strings.ToLower`). -/
def hasher (hashStr : String) : HashSpec :=
  match splitColon hashStr.toList with
  | none => .panicMsg ("incorrect checksum format: " ++ hashStr)
  | some (alg, checksum) =>
    if String.mk alg = "sha256" then .ok (String.mk (checksum.map Char.toLower))
    else .panicMsg ("unsupported hashing algorithm: " ++ String.mk alg)

/-- The symlink created for the binding `b = (dst, src)` (lines 399-404):
relative (`srcLinkPath`) for docker platforms, absolute (the artifact path)
otherwise. -/
def linkTargetOf (cacheRoot : Path) (name : Name) (info : Tool) (platform : Platform)
    (b : String × String) : LinkTarget :=
  if platform.OS = dockerOS then .rel (srcLinkPath name info b.1 b.2)
  else .abs (srcPathOf cacheRoot name info platform b.2)

/-- One iteration of the `install` publish loop (lines 391-407) for the
binding `b = (dst, src)`: remove any pre-existing destination, create its
parent directory, chmod the artifact to `0o700`, and create the symlink
(relative for docker platforms, absolute otherwise).  The `must.OK`-guarded
filesystem calls are modelled as succeeding. -/
def publishBinding (cacheRoot cwd : Path) (name : Name) (info : Tool) (platform : Platform)
    (fs : FS) (b : String × String) : FS :=
  let srcPath := srcPathOf cacheRoot name info platform b.2
  let dstPath := dstPathOf cacheRoot cwd platform b.1
  let fs : FS := { fs with
    links := eraseAL fs.links dstPath,
    modes := eraseAL fs.modes dstPath,
    contents := eraseAL fs.contents dstPath }
  let fs := addDir dstPath.dropLast fs
  let fs : FS := { fs with modes := setAL fs.modes srcPath 0o700 }
  { fs with links := setAL fs.links dstPath (linkTargetOf cacheRoot name info platform b) }

/-- Model of `install` (lines 346-411): GET the source URL, parse the hash
spec, tear down and recreate the tool directory, stream the payload through
`save` while hashing it, compare digests, then publish the binaries.  The
deferred cleanup removes the tool directory whenever an error is returned
after the directory was created. -/
def install (cacheRoot cwd : Path) (name : Name) (info : Tool) (platform : Platform)
    (env : InstallEnv) (fs : FS) : Outcome × FS :=
  match lookupAL info.Sources platform with
  | none => (.panicked ("tool " ++ name ++ " is not configured for platform " ++ platform.str), fs)
  | some source =>
    match env.httpErr with
    | some e => (.err (.transport e), fs)
    | none =>
      match hasher source.Hash with
      | .panicMsg m => (.panicked m, fs)
      | .ok expectedChecksum =>
        let td := toolDirPath cacheRoot name info platform
        let fs1 := addDir td (removeAllFS td fs)
        let fs2 : FS :=
          { fs1 with modes := env.savedFiles.foldl (fun m pr => setAL m pr.1 pr.2) fs1.modes }
        match env.saveErr with
        | some e => (.err (.saveFailed e), removeAllFS td fs2)
        | none =>
          if env.actualChecksum ≠ expectedChecksum then
            (.err (.checksumMismatch name expectedChecksum env.actualChecksum source.URL),
              removeAllFS td fs2)
          else
            (.ok, (loAssign info.Binaries source.Binaries).foldl
              (publishBinding cacheRoot cwd name info platform) fs2)

/-- Model of `ensurePlatform` (lines 303-344): look the tool up in the
catalog (missing tool: returned error), look the platform up in its sources
(missing platform: panic), then run the per-binding checks over the merged
binary mapping and call `install` when any of them fails.  The returned
`Bool` records whether `install` was invoked (and hence whether a network
request was issued). -/
def ensurePlatform (cacheRoot cwd : Path) (cat : List (Name × Tool)) (env : InstallEnv)
    (fs : FS) (tool : Name) (platform : Platform) : Outcome × FS × Bool :=
  match lookupAL cat tool with
  | none => (.err (.toolNotDefined tool), fs, false)
  | some info =>
    match lookupAL info.Sources platform with
    | none =>
      (.panicked ("tool " ++ tool ++ " is not configured for platform " ++ platform.str),
        fs, false)
    | some source =>
      if (loAssign info.Binaries source.Binaries).all
          (checkBinding cacheRoot cwd tool info platform fs) then
        (.ok, fs, false)
      else
        let r := install cacheRoot cwd tool info platform env fs
        (r.1, r.2, true)

-- ---------------------------------------------------------------------------
-- Materializer: CopyToolBinaries (lines 546-599)
-- ---------------------------------------------------------------------------

/-- `ByName returns tool definition by its name.`  A missing key yields the
Go zero value of `Tool`. -/
def ByName (cat : List (Name × Tool)) (name : Name) : Tool :=
  (lookupAL cat name).getD { Version := "", Sources := [], Binaries := [] }

/-- `PathDocker returns path to docker-installed tool.`:
`filepath.Abs(filepath.Join(CacheDir(), DockerPlatform.String(), tool))`. -/
def PathDocker (cacheRoot : Path) (goarch : String) (tool : String) : Path :=
  cacheRoot ++ [(DockerPlatform goarch).str] ++ segs tool

/-- Model of `filepath.Base` on the slash-joined paths used here: the last
segment. -/
def baseName (s : String) : String :=
  (segs s).getLastD ""

/-- Errors returned by `CopyToolBinaries`. -/
inductive CopyErr where
  | missingBinary (binary tool : String)
  | evalFailed (p : Path)
  | openFailed (p : Path)
  deriving DecidableEq

/-- The message of the validation error
(`errors.Errorf("the binary %q doesn't exists for the requested tool %q", ...)`). -/
def renderCopyErr : CopyErr → String
  | .missingBinary b t =>
      "the binary \"" ++ b ++ "\" doesn't exists for the requested tool \"" ++ t ++ "\""
  | .evalFailed _ => "eval symlinks failed"
  | .openFailed _ => "open failed"

inductive CopyOutcome where
  | ok
  | failed (e : CopyErr)
  deriving DecidableEq

/-- The copy loop of `CopyToolBinaries` (lines 574-596): resolve the
published docker symlink of each requested binary and byte-copy the real
file to `<path>/<binaryName>` with mode `0o777`. -/
def copyLoop (cacheRoot : Path) (goarch : String) (stored : List (String × String))
    (path : Path) : List String → FS → CopyOutcome × FS
  | [], fs => (.ok, fs)
  | b :: rest, fs =>
    let storedBinaryPath := (lookupAL stored b).getD ""
    let pathDocker := PathDocker cacheRoot goarch storedBinaryPath
    match evalSymlinks fs pathDocker with
    | none => (.failed (.evalFailed pathDocker), fs)
    | some absPath =>
      match lookupAL fs.contents absPath with
      | none => (.failed (.openFailed absPath), fs)
      | some data =>
        let fs : FS := { fs with
          contents := setAL fs.contents (path ++ [b]) data,
          modes := setAL fs.modes (path ++ [b]) 0o777 }
        copyLoop cacheRoot goarch stored path rest fs

/-- The `map[name]path` index of `CopyToolBinaries` (lines 552-559): the
base names of the tool-level binary destinations, then those of the
docker-platform source binaries (which overwrite on collision). -/
def storedBinaryNames (cat : List (Name × Tool)) (goarch : String) (tool : Name) :
    List (String × String) :=
  let t := ByName cat tool
  let fromTool := t.Binaries.foldl (fun m pr => setAL m (baseName pr.1) pr.1) []
  ((lookupAL t.Sources (DockerPlatform goarch)).getD
      { URL := "", Hash := "" }).Binaries.foldl
    (fun m pr => setAL m (baseName pr.1) pr.1) fromTool

/-- Model of `CopyToolBinaries(tool, path, binaryNames...)` (lines 546-599):
return `nil` at once when no binary is requested; build the name index; fail
on the first requested name missing from it; otherwise create the
destination directory and copy each binary. -/
def CopyToolBinaries (cacheRoot : Path) (cat : List (Name × Tool)) (goarch : String)
    (tool : Name) (path : Path) (binaryNames : List String) (fs : FS) :
    CopyOutcome × FS :=
  if binaryNames.isEmpty then (.ok, fs)
  else
    let stored := storedBinaryNames cat goarch tool
    match binaryNames.find? (fun b => (lookupAL stored b).isNone) with
    | some b => (.failed (.missingBinary b tool), fs)
    | none =>
      let fs := addDir path fs
      copyLoop cacheRoot goarch stored path binaryNames fs

-- ---------------------------------------------------------------------------
-- Archive extractor: untar (lines 452-516)
-- ---------------------------------------------------------------------------

/-- `archive/tar` type flags: `tar.TypeReg`, `tar.TypeLink`,
`tar.TypeSymlink`, `tar.TypeDir` (bytes of the characters 0, 1, 2, 5). -/
def TypeReg : Nat := 48
def TypeLink : Nat := 49
def TypeSymlink : Nat := 50
def TypeDir : Nat := 53

/-- One archive entry, with the permission mode already taken from
`header.FileInfo().Mode()` and, for regular files, the entry's bytes. -/
structure TarHeader where
  Typeflag : Nat
  Name : String
  Linkname : String := ""
  Mode : Nat := 0
  Body : String := ""
  deriving DecidableEq

/-- Filesystem state seen by `untar`, with inode identity so that hardlinks
are observable: `files` maps a path to an inode, `inodes` maps an inode to
its content. -/
structure TarFS where
  nextInode : Nat := 0
  inodes : List (Nat × String) := []
  files : List (String × Nat) := []
  fileModes : List (String × Nat) := []
  dirs : List (String × Nat) := []
  syms : List (String × String) := []
  deriving DecidableEq

/-- Directory part of a slash-joined path (model of `filepath.Dir`). -/
def strDirname (s : String) : String :=
  String.mk (joinSlash ((segsCore s.toList).dropLast))

/-- Model of `ensureDir(file)`: `os.MkdirAll(filepath.Dir(file), 0o755)`
(ancestors above the immediate parent are not tracked individually). -/
def tarEnsureDir (file : String) (fs : TarFS) : TarFS :=
  if (lookupAL fs.dirs (strDirname file)).isSome then fs
  else { fs with dirs := (strDirname file, 0o755) :: fs.dirs }

/-- Content of the regular file at `p`, read through its inode. -/
def readFile (fs : TarFS) (p : String) : Option String :=
  match lookupAL fs.files p with
  | none => none
  | some ino => lookupAL fs.inodes ino

/-- Errors surfaced by the extraction loop. -/
inductive TarErr where
  | symlinkExists (p : String)
  | linkFailed (target : String)
  | unsupported (typeflag : Nat)
  deriving DecidableEq

/-- One iteration of the `untar` loop (lines 455-515).  `header.Name` is
first prefixed with the destination path; `header.Linkname` is used as-is
in both the symlink and the hardlink branch. -/
def untarStep (path : String) (fs : TarFS) (h : TarHeader) : Except TarErr TarFS :=
  let name := path ++ "/" ++ h.Name
  if h.Typeflag = TypeDir then
    -- os.MkdirAll(name, mode); "already exists" is not an error
    if (lookupAL fs.dirs name).isSome then .ok fs
    else .ok { fs with dirs := (name, h.Mode) :: fs.dirs }
  else if h.Typeflag = TypeReg then
    let fs := tarEnsureDir name fs
    -- os.OpenFile(name, os.O_CREATE|os.O_WRONLY, mode) then io.Copy: a file
    -- created if absent; an existing file is opened WITHOUT truncation and
    -- the body is written from offset 0, keeping any longer tail.
    match lookupAL fs.files name with
    | some ino =>
      let old := (lookupAL fs.inodes ino).getD ""
      .ok { fs with inodes := setAL fs.inodes ino (h.Body ++ old.drop h.Body.length) }
    | none =>
      .ok { fs with
        files := (name, fs.nextInode) :: fs.files,
        fileModes := (name, h.Mode) :: fs.fileModes,
        inodes := setAL fs.inodes fs.nextInode h.Body,
        nextInode := fs.nextInode + 1 }
  else if h.Typeflag = TypeSymlink then
    let fs := tarEnsureDir name fs
    -- os.Symlink(h.Linkname, name): fails when name already exists
    if ((lookupAL fs.syms name).isSome || (lookupAL fs.files name).isSome) then
      .error (.symlinkExists name)
    else .ok { fs with syms := (name, h.Linkname) :: fs.syms }
  else if h.Typeflag = TypeLink then
    let fs := tarEnsureDir name fs
    -- os.OpenFile(h.Linkname, os.O_CREATE|os.O_EXCL, mode): empty
    -- placeholder, skipped when h.Linkname (relative to the process working
    -- directory, NOT prefixed with the destination path) already exists
    let fs :=
      if (lookupAL fs.files h.Linkname).isSome then fs
      else { fs with
        files := (h.Linkname, fs.nextInode) :: fs.files,
        fileModes := (h.Linkname, h.Mode) :: fs.fileModes,
        inodes := setAL fs.inodes fs.nextInode "",
        nextInode := fs.nextInode + 1 }
    -- os.Link(h.Linkname, name)
    match lookupAL fs.files h.Linkname with
    | none => .error (.linkFailed h.Linkname)
    | some ino =>
      if (lookupAL fs.files name).isSome then .error (.symlinkExists name)
      else .ok { fs with files := (name, ino) :: fs.files }
  else .error (.unsupported h.Typeflag)

/-- Model of `untar(reader, path)`: process the entries in stream order,
stopping at the first error (EOF ends the loop normally). -/
def untar : List TarHeader → String → TarFS → Except TarErr TarFS
  | [], _, fs => .ok fs
  | h :: rest, path, fs =>
    match untarStep path fs h with
    | .error e => .error e
    | .ok fs2 => untar rest path fs2

-- ---------------------------------------------------------------------------
-- Derived observations used in the claim statements
-- ---------------------------------------------------------------------------

/-- Nothing at or below the directory `td` exists in `fs`. -/
def FS.absentUnder (fs : FS) (td : Path) : Prop :=
  (∀ p ∈ fs.dirs, td.isPrefixOf p = false) ∧
  (∀ pr ∈ fs.links, td.isPrefixOf pr.1 = false) ∧
  (∀ pr ∈ fs.modes, td.isPrefixOf pr.1 = false) ∧
  (∀ pr ∈ fs.contents, td.isPrefixOf pr.1 = false)

instance (fs : FS) (td : Path) : Decidable (fs.absentUnder td) := by
  unfold FS.absentUnder; infer_instance

/-- Content observed at `p` after extracting `entries` into `path` over
`fs` (`none` when extraction fails or no regular file is at `p`). -/
def untarRead (entries : List TarHeader) (path : String) (fs : TarFS) (p : String) :
    Option String :=
  match untar entries path fs with
  | .ok fs2 => readFile fs2 p
  | .error _ => none

/-- Inode observed at `p` after extracting `entries` into `path` over `fs`. -/
def untarInode (entries : List TarHeader) (path : String) (fs : TarFS) (p : String) :
    Option Nat :=
  match untar entries path fs with
  | .ok fs2 => lookupAL fs2.files p
  | .error _ => none

/-- Mode of the directory at `p` after extraction. -/
def untarDir (entries : List TarHeader) (path : String) (fs : TarFS) (p : String) :
    Option Nat :=
  match untar entries path fs with
  | .ok fs2 => lookupAL fs2.dirs p
  | .error _ => none

/-- Recorded target of the symlink at `p` after extraction. -/
def untarSym (entries : List TarHeader) (path : String) (fs : TarFS) (p : String) :
    Option String :=
  match untar entries path fs with
  | .ok fs2 => lookupAL fs2.syms p
  | .error _ => none

/-- The docker symlink target as the claim words it: `"../"` repeated once
per path segment of the destination, followed by `<tool>-<version>/<source>`. -/
def claimLinkTargetPerSegment (name : Name) (info : Tool) (dst src : String) : String :=
  goRepeat "../" (segs dst).length ++ name ++ "-" ++ info.Version ++ "/" ++ src

/-- Well-formedness of the merged binary mapping `L` of a tool, as the real
catalog satisfies it: destination paths are pairwise distinct and distinct
from every artifact path, the versioned directory name has no `/` and is
neither empty nor `..`, and source paths have no empty and no `..`
segments. -/
def BindingsWF (cacheRoot cwd : Path) (name : Name) (info : Tool) (platform : Platform)
    (L : List (String × String)) : Prop :=
  (L.map (fun b => dstPathOf cacheRoot cwd platform b.1)).Nodup ∧
  (∀ b ∈ L, ∀ c ∈ L,
    dstPathOf cacheRoot cwd platform c.1 ≠ srcPathOf cacheRoot name info platform b.2) ∧
  ('/' ∉ (name ++ "-" ++ info.Version).toList) ∧
  ((name ++ "-" ++ info.Version).toList ≠ []) ∧
  (name ++ "-" ++ info.Version ≠ "..") ∧
  (∀ b ∈ L, (∀ s ∈ segsCore b.2.toList, s ≠ []) ∧ ".." ∉ segs b.2)

instance (cacheRoot cwd : Path) (name : Name) (info : Tool) (platform : Platform)
    (L : List (String × String)) :
    Decidable (BindingsWF cacheRoot cwd name info platform L) := by
  unfold BindingsWF; infer_instance

-- ---------------------------------------------------------------------------
-- Concrete fixtures for counterexamples and witnesses
-- ---------------------------------------------------------------------------

/-- A concrete cache root (stands for `os.UserCacheDir() + "/crust"`). -/
def cacheRootC : Path := ["cache"]

/-- A concrete working directory. -/
def cwdC : Path := ["cwd"]

def goTool : Tool := ByName tools "go"

def cosmovisorTool : Tool := ByName tools "cosmovisor"

/-- Environment in which the `go` linux/amd64 payload streams and hashes to
its declared digest. -/
def envGoOK : InstallEnv :=
  { actualChecksum := "000a5b1fca4f75895f78befeb2eecf10bfff3c428597f3f1e69133b63b911b02" }

/-- Environment in which the `cosmovisor` docker/amd64 payload hashes to its
declared digest. -/
def envCosmOK : InstallEnv :=
  { actualChecksum := "34d7c9fbaa03f49b8278e13768d0fd82e28101dfa9625e25379c36a86d558826" }

/-- Environment whose streamed payload hashes to a digest different from
every declared one. -/
def envBad : InstallEnv := { actualChecksum := "deadbeef" }

/-- Filesystem after the first successful `EnsureLocal`-style call for `go`
on linux/amd64 from an empty filesystem. -/
def fsGo1 : FS :=
  (ensurePlatform cacheRootC cwdC tools envGoOK {} "go" linuxAMD64).2.1

/-- Filesystem after installing `cosmovisor` for docker/amd64 from an empty
filesystem. -/
def instCosm : Outcome × FS :=
  install cacheRootC cwdC "cosmovisor" cosmovisorTool dockerAMD64 envCosmOK {}

/-- Filesystem in which both `go` destinations resolve to the expected
artifacts but the artifacts have mode `0o400` (owner read only): the mode
has SOME owner bit set, but not all of `0o700`. -/
def fsModes400 : FS :=
  { links := [
      (dstPathOf cacheRootC cwdC linuxAMD64 "bin/go",
        .abs (srcPathOf cacheRootC "go" goTool linuxAMD64 "go/bin/go")),
      (dstPathOf cacheRootC cwdC linuxAMD64 "bin/gofmt",
        .abs (srcPathOf cacheRootC "go" goTool linuxAMD64 "go/bin/gofmt"))],
    modes := [
      (srcPathOf cacheRootC "go" goTool linuxAMD64 "go/bin/go", 0o400),
      (srcPathOf cacheRootC "go" goTool linuxAMD64 "go/bin/gofmt", 0o400)] }

/-- Like `fsModes400` but with artifact mode `0o066` (no owner bit set). -/
def fsModes066 : FS :=
  { links := [
      (dstPathOf cacheRootC cwdC linuxAMD64 "bin/go",
        .abs (srcPathOf cacheRootC "go" goTool linuxAMD64 "go/bin/go")),
      (dstPathOf cacheRootC cwdC linuxAMD64 "bin/gofmt",
        .abs (srcPathOf cacheRootC "go" goTool linuxAMD64 "go/bin/gofmt"))],
    modes := [
      (srcPathOf cacheRootC "go" goTool linuxAMD64 "go/bin/go", 0o066),
      (srcPathOf cacheRootC "go" goTool linuxAMD64 "go/bin/gofmt", 0o066)] }

/-- A filesystem holding a six-byte file at `root/a`. -/
def tarFSreg : TarFS :=
  { nextInode := 1, inodes := [(0, "abcdef")], files := [("root/a", 0)] }

/-- The four-kind archive of the round-trip scenario: a directory, a regular
file, a symlink, and a hardlink whose entry appears before its target's
regular entry. -/
def archFour : List TarHeader := [
  { Typeflag := TypeDir, Name := "d", Mode := 0o755 },
  { Typeflag := TypeReg, Name := "d/f1", Mode := 0o755, Body := "AAA" },
  { Typeflag := TypeSymlink, Name := "d/s", Linkname := "f1" },
  { Typeflag := TypeLink, Name := "d/l", Linkname := "d/f2" },
  { Typeflag := TypeReg, Name := "d/f2", Mode := 0o644, Body := "BBB" }]

-- ---------------------------------------------------------------------------
-- Association-list lemmas
-- ---------------------------------------------------------------------------

theorem lookupAL_eraseAL {α β : Type} [DecidableEq α] (l : List (α × β)) (k x : α) :
    lookupAL (eraseAL l k) x = if x = k then none else lookupAL l x := by
  induction l with
  | nil => simp [eraseAL, lookupAL]
  | cons hd t ih =>
    by_cases hk : hd.1 = k
    · by_cases hx : x = k
      · subst hx
        simp [eraseAL, hk, ih]
      · simp [eraseAL, hk, ih, hx, lookupAL]
    · by_cases hx : x = k
      · subst hx
        have hne : ¬ x = hd.1 := fun he => hk he.symm
        simp [eraseAL, hk, lookupAL, hne, ih]
      · simp [eraseAL, hk, ih, hx, lookupAL]

theorem lookupAL_setAL {α β : Type} [DecidableEq α] (l : List (α × β)) (k : α) (v : β)
    (x : α) : lookupAL (setAL l k v) x = if x = k then some v else lookupAL l x := by
  by_cases hx : x = k
  · simp [setAL, lookupAL, hx]
  · simp [setAL, lookupAL, hx, lookupAL_eraseAL]

theorem lookupAL_append {α β : Type} [DecidableEq α] (xs ys : List (α × β)) (k : α) :
    lookupAL (xs ++ ys) k =
      ((lookupAL xs k).rec (lookupAL ys k) (fun v => some v) : Option β) := by
  induction xs with
  | nil => rfl
  | cons hd t ih =>
    by_cases hk : k = hd.1
    · simp [lookupAL, hk]
    · simp [lookupAL, hk, ih]

-- ---------------------------------------------------------------------------
-- Segment-splitting lemmas
-- ---------------------------------------------------------------------------

theorem segsCore_ne_nil (cs : List Char) : segsCore cs ≠ [] := by
  induction cs with
  | nil => simp [segsCore]
  | cons c t ih =>
    by_cases hc : c = '/'
    · simp [segsCore, hc]
    · cases ht : segsCore t with
      | nil => exact absurd ht ih
      | cons s ss => simp [segsCore, hc, ht]

theorem length_segsCore (cs : List Char) :
    (segsCore cs).length = cs.count '/' + 1 := by
  induction cs with
  | nil => simp [segsCore]
  | cons c t ih =>
    by_cases hc : c = '/'
    · simp [segsCore, hc, List.count_cons, ih]
    · cases ht : segsCore t with
      | nil => exact absurd ht (segsCore_ne_nil t)
      | cons s ss =>
        have hcount : (c :: t).count '/' = t.count '/' := by
          simp [List.count_cons, hc]
        simp only [segsCore, if_neg hc, ht, hcount, List.length_cons]
        have := ih
        rw [ht] at this
        simpa using this

theorem segsCore_no_slash (cs : List Char) (h : '/' ∉ cs) : segsCore cs = [cs] := by
  induction cs with
  | nil => rfl
  | cons c t ih =>
    have hc : c ≠ '/' := fun he => h (he ▸ List.mem_cons_self c t)
    have ht : '/' ∉ t := fun hm => h (List.mem_cons_of_mem c hm)
    have hcne : ¬ c = '/' := hc
    simp [segsCore, hcne, ih ht]

theorem segsCore_append (as bs : List Char) :
    segsCore (as ++ '/' :: bs) = segsCore as ++ segsCore bs := by
  induction as with
  | nil => simp [segsCore]
  | cons c t ih =>
    by_cases hc : c = '/'
    · simp [segsCore, hc, ih]
    · cases ht : segsCore t with
      | nil => exact absurd ht (segsCore_ne_nil t)
      | cons s ss =>
        have ih2 := ih
        rw [ht] at ih2
        simp [segsCore, hc, ih2, ht]

theorem mem_segsCore_no_slash (cs : List Char) (s : List Char) (h : s ∈ segsCore cs) :
    '/' ∉ s := by
  induction cs generalizing s with
  | nil =>
    simp [segsCore] at h
    simp [h]
  | cons c t ih =>
    by_cases hc : c = '/'
    · rw [segsCore, if_pos hc] at h
      rcases List.mem_cons.mp h with he | hm
      · simp [he]
      · exact ih s hm
    · cases ht : segsCore t with
      | nil => exact absurd ht (segsCore_ne_nil t)
      | cons x xs =>
        rw [segsCore, if_neg hc, ht] at h
        rcases List.mem_cons.mp h with he | hm
        · subst he
          intro hmem
          rcases List.mem_cons.mp hmem with he2 | hm2
          · exact hc he2.symm
          · exact ih x (ht ▸ List.mem_cons_self x xs) hm2
        · exact ih s (ht ▸ List.mem_cons_of_mem x hm)

theorem segsCore_joinSlash (xss : List (List Char)) (hne : xss ≠ [])
    (hs : ∀ x ∈ xss, '/' ∉ x) : segsCore (joinSlash xss) = xss := by
  induction xss with
  | nil => exact absurd rfl hne
  | cons x t ih =>
    cases t with
    | nil =>
      simp only [joinSlash]
      exact segsCore_no_slash x (hs x (List.mem_cons_self x []))
    | cons y u =>
      have : joinSlash (x :: y :: u) = x ++ '/' :: joinSlash (y :: u) := rfl
      rw [this, segsCore_append, segsCore_no_slash x (hs x (List.mem_cons_self x (y :: u))),
        ih (by simp) (fun z hz => hs z (List.mem_cons_of_mem x hz))]
      rfl

theorem segs_ne_nil (s : String) : segs s ≠ [] := by
  unfold segs
  intro h
  exact segsCore_ne_nil s.toList (List.map_eq_nil_iff.mp h)

theorem length_segs (s : String) : (segs s).length = countSlash s + 1 := by
  unfold segs countSlash
  rw [List.length_map]
  exact length_segsCore s.toList

-- ---------------------------------------------------------------------------
-- Relative-path resolution lemmas
-- ---------------------------------------------------------------------------

theorem resolveRel_replicate (n : Nat) (xs ys : Path) (rest : List String)
    (h : ys.length = n) :
    resolveRel (xs ++ ys) (List.replicate n ".." ++ rest) = resolveRel xs rest := by
  induction n generalizing ys with
  | zero =>
    rw [List.length_eq_zero.mp h]
    simp
  | succ n ih =>
    rcases List.eq_nil_or_concat ys with hnil | ⟨L, b, hcat⟩
    · subst hnil; simp at h
    · subst hcat
      rw [List.concat_eq_append] at h ⊢
      have hL : L.length = n := by simpa using h
      have hstep :
          resolveRel (xs ++ (L ++ [b])) (List.replicate (n + 1) ".." ++ rest) =
            resolveRel ((xs ++ (L ++ [b])).dropLast) (List.replicate n ".." ++ rest) := by
        rw [List.replicate_succ, List.cons_append]
        simp [resolveRel]
      have hdl : (xs ++ (L ++ [b])).dropLast = xs ++ L := by
        rw [← List.append_assoc, List.dropLast_concat]
      rw [hstep, hdl]
      exact ih L hL

theorem resolveRel_no_dotdot (rest : List String) (base : Path) (h : ".." ∉ rest) :
    resolveRel base rest = base ++ rest := by
  induction rest generalizing base with
  | nil => simp [resolveRel]
  | cons s t ih =>
    have hs : ¬ s = ".." := fun he => h (he ▸ List.mem_cons_self s t)
    have hstep : resolveRel base (s :: t) = resolveRel (base ++ [s]) t := by
      simp [resolveRel, hs]
    rw [hstep, ih (base ++ [s]) (fun hm => h (List.mem_cons_of_mem s hm))]
    simp

-- ---------------------------------------------------------------------------
-- Segmentization of the docker symlink target
-- ---------------------------------------------------------------------------

theorem segsCore_goRepeat (n : Nat) :
    segsCore (goRepeat "../" n).toList =
      List.replicate n ['.', '.'] ++ [[]] := by
  induction n with
  | zero => rfl
  | succ n ih =>
    have hflat : (goRepeat "../" (n + 1)).toList =
        ['.', '.'] ++ '/' :: (goRepeat "../" n).toList := by
      show (List.replicate (n + 1) ('.'.toString ++ "./").toList).flatten =
        ['.', '.'] ++ '/' :: (List.replicate n ('.'.toString ++ "./").toList).flatten
      rw [List.replicate_succ, List.flatten_cons]
      rfl
    rw [hflat, segsCore_append, segsCore_no_slash ['.', '.'] (by decide), ih,
      List.replicate_succ]
    rfl

theorem segs_srcLinkPath (name : Name) (info : Tool) (dst src : String)
    (hnv1 : '/' ∉ (name ++ "-" ++ info.Version).toList)
    (hnv2 : (name ++ "-" ++ info.Version).toList ≠ [])
    (hsrc : ∀ s ∈ segsCore src.toList, s ≠ []) :
    segs (srcLinkPath name info dst src) =
      List.replicate (countSlash dst) ".." ++
        [name ++ "-" ++ info.Version] ++ segs src := by
  have hmkself : ∀ t : String, String.mk t.toList = t := fun t => rfl
  unfold srcLinkPath filepathJoin segs
  have hflat :
      (([goRepeat "../" (countSlash dst), name ++ "-" ++ info.Version,
          src].map String.toList).flatMap segsCore) =
        segsCore (goRepeat "../" (countSlash dst)).toList ++
          (segsCore (name ++ "-" ++ info.Version).toList ++
            (segsCore src.toList ++ [])) := by
    simp [List.flatMap]
  rw [hflat]
  rw [segsCore_goRepeat, segsCore_no_slash _ hnv1, List.append_nil]
  have hfilter :
      ((List.replicate (countSlash dst) ['.', '.'] ++ [([] : List Char)] ++
          ([(name ++ "-" ++ info.Version).toList] ++ segsCore src.toList)).filter
        (fun s => s ≠ [])) =
        List.replicate (countSlash dst) ['.', '.'] ++
          ([(name ++ "-" ++ info.Version).toList] ++ segsCore src.toList) := by
    rw [List.filter_append, List.filter_append, List.filter_append]
    have h1 : (List.replicate (countSlash dst) ['.', '.']).filter (fun s => s ≠ []) =
        List.replicate (countSlash dst) ['.', '.'] :=
      List.filter_eq_self.mpr (fun x hx => by
        rw [List.eq_of_mem_replicate hx]; decide)
    have h2 : ([([] : List Char)]).filter (fun s => s ≠ []) = [] := by decide
    have h3 : ([(name ++ "-" ++ info.Version).toList]).filter (fun s => s ≠ []) =
        [(name ++ "-" ++ info.Version).toList] := by
      simp [List.filter, hnv2]
    have h4 : (segsCore src.toList).filter (fun s => s ≠ []) = segsCore src.toList :=
      List.filter_eq_self.mpr (fun x hx => by simpa using hsrc x hx)
    rw [h1, h2, h3, h4, List.append_nil]
  rw [hfilter]
  have hjoin : segsCore (String.mk (joinSlash
      (List.replicate (countSlash dst) ['.', '.'] ++
        ([(name ++ "-" ++ info.Version).toList] ++ segsCore src.toList)))).toList =
      List.replicate (countSlash dst) ['.', '.'] ++
        ([(name ++ "-" ++ info.Version).toList] ++ segsCore src.toList) := by
    show segsCore (joinSlash _) = _
    apply segsCore_joinSlash
    · simp
    · intro x hx
      rcases List.mem_append.mp hx with hrep | hrest
      · rw [List.eq_of_mem_replicate hrep]; decide
      · rcases List.mem_append.mp hrest with hnv | hsrcm
        · rw [List.mem_singleton.mp hnv]; exact hnv1
        · exact mem_segsCore_no_slash src.toList x hsrcm
  rw [hjoin]
  simp only [List.map_append, List.map_replicate, List.map_cons, List.map_nil]
  have hdot : (String.mk ['.', '.'] : String) = ".." := rfl
  rw [hdot, hmkself (name ++ "-" ++ info.Version)]
  show List.replicate (countSlash dst) ".." ++
      ([name ++ "-" ++ info.Version] ++ segs src) = _
  rw [← List.append_assoc]
  rfl

/-- Resolving the docker-relative symlink target from the destination's
directory lands exactly on the artifact path. -/
theorem resolve_docker_link (cacheRoot cwd : Path) (name : Name) (info : Tool)
    (platform : Platform) (dst src : String)
    (hdocker : platform.OS = dockerOS)
    (hnv1 : '/' ∉ (name ++ "-" ++ info.Version).toList)
    (hnv2 : (name ++ "-" ++ info.Version).toList ≠ [])
    (hnvdd : name ++ "-" ++ info.Version ≠ "..")
    (hsrc : ∀ s ∈ segsCore src.toList, s ≠ [])
    (hsdd : ".." ∉ segs src) :
    resolveRel (dstPathOf cacheRoot cwd platform dst).dropLast
      (segs (srcLinkPath name info dst src)) =
      srcPathOf cacheRoot name info platform src := by
  rw [segs_srcLinkPath name info dst src hnv1 hnv2 hsrc]
  have hdst : dstPathOf cacheRoot cwd platform dst =
      (cacheRoot ++ [platform.str]) ++ segs dst := by
    simp [dstPathOf, hdocker]
  rw [hdst, List.dropLast_append_of_ne_nil _ (segs_ne_nil dst)]
  have hlen : (segs dst).dropLast.length = countSlash dst := by
    rw [List.length_dropLast, length_segs]
    omega
  rw [List.append_assoc (List.replicate (countSlash dst) "..")
    [name ++ "-" ++ info.Version] (segs src)]
  rw [resolveRel_replicate (countSlash dst) (cacheRoot ++ [platform.str])
    (segs dst).dropLast ([name ++ "-" ++ info.Version] ++ segs src) hlen]
  rw [resolveRel_no_dotdot _ _ (by
    intro hm
    rcases List.mem_append.mp hm with h1 | h2
    · exact hnvdd (List.mem_singleton.mp h1).symm
    · exact hsdd h2)]
  simp [srcPathOf, toolDirPath]

-- ---------------------------------------------------------------------------
-- Publish-loop lemmas
-- ---------------------------------------------------------------------------

theorem lookup_links_publishBinding (cacheRoot cwd : Path) (name : Name) (info : Tool)
    (platform : Platform) (fs : FS) (b : String × String) (x : Path) :
    lookupAL (publishBinding cacheRoot cwd name info platform fs b).links x =
      if x = dstPathOf cacheRoot cwd platform b.1 then
        some (linkTargetOf cacheRoot name info platform b)
      else lookupAL fs.links x := by
  show lookupAL (setAL (eraseAL fs.links (dstPathOf cacheRoot cwd platform b.1))
    (dstPathOf cacheRoot cwd platform b.1) (linkTargetOf cacheRoot name info platform b)) x = _
  rw [lookupAL_setAL, lookupAL_eraseAL]
  by_cases hx : x = dstPathOf cacheRoot cwd platform b.1 <;> simp [hx]

theorem lookup_modes_publishBinding (cacheRoot cwd : Path) (name : Name) (info : Tool)
    (platform : Platform) (fs : FS) (b : String × String) (x : Path) :
    lookupAL (publishBinding cacheRoot cwd name info platform fs b).modes x =
      if x = srcPathOf cacheRoot name info platform b.2 then some 0o700
      else if x = dstPathOf cacheRoot cwd platform b.1 then none
      else lookupAL fs.modes x := by
  show lookupAL (setAL (eraseAL fs.modes (dstPathOf cacheRoot cwd platform b.1))
    (srcPathOf cacheRoot name info platform b.2) 0o700) x = _
  rw [lookupAL_setAL, lookupAL_eraseAL]

theorem foldl_publish_links_of_ne (cacheRoot cwd : Path) (name : Name) (info : Tool)
    (platform : Platform) (L : List (String × String)) (fs : FS) (q : Path)
    (h : ∀ c ∈ L, dstPathOf cacheRoot cwd platform c.1 ≠ q) :
    lookupAL (L.foldl (publishBinding cacheRoot cwd name info platform) fs).links q =
      lookupAL fs.links q := by
  induction L generalizing fs with
  | nil => rfl
  | cons c T ih =>
    rw [List.foldl_cons, ih _ (fun d hd => h d (List.mem_cons_of_mem c hd)),
      lookup_links_publishBinding]
    have hne : ¬ q = dstPathOf cacheRoot cwd platform c.1 :=
      fun he => h c (List.mem_cons_self c T) he.symm
    simp [hne]

theorem foldl_publish_modes_preserve (cacheRoot cwd : Path) (name : Name) (info : Tool)
    (platform : Platform) (L : List (String × String)) (fs : FS) (p : Path)
    (h : ∀ c ∈ L, dstPathOf cacheRoot cwd platform c.1 ≠ p)
    (hm : lookupAL fs.modes p = some 0o700) :
    lookupAL (L.foldl (publishBinding cacheRoot cwd name info platform) fs).modes p =
      some 0o700 := by
  induction L generalizing fs with
  | nil => exact hm
  | cons c T ih =>
    rw [List.foldl_cons]
    refine ih _ (fun d hd => h d (List.mem_cons_of_mem c hd)) ?_
    rw [lookup_modes_publishBinding]
    have hne : ¬ p = dstPathOf cacheRoot cwd platform c.1 :=
      fun he => h c (List.mem_cons_self c T) he.symm
    by_cases hs : p = srcPathOf cacheRoot name info platform c.2 <;> simp [hs, hne, hm]

theorem foldl_publish_establishes (cacheRoot cwd : Path) (name : Name) (info : Tool)
    (platform : Platform) (L : List (String × String)) (fs : FS) (b : String × String)
    (hb : b ∈ L)
    (hnd : (L.map (fun c => dstPathOf cacheRoot cwd platform c.1)).Nodup)
    (hds : ∀ c ∈ L,
      dstPathOf cacheRoot cwd platform c.1 ≠ srcPathOf cacheRoot name info platform b.2) :
    lookupAL (L.foldl (publishBinding cacheRoot cwd name info platform) fs).links
        (dstPathOf cacheRoot cwd platform b.1) =
      some (linkTargetOf cacheRoot name info platform b) ∧
    lookupAL (L.foldl (publishBinding cacheRoot cwd name info platform) fs).modes
        (srcPathOf cacheRoot name info platform b.2) = some 0o700 := by
  induction L generalizing fs with
  | nil => cases hb
  | cons c T ih =>
    rw [List.foldl_cons]
    rcases List.mem_cons.mp hb with he | hm
    · subst he
      have hnotin := (List.nodup_cons.mp hnd).1
      have hT : ∀ d ∈ T, dstPathOf cacheRoot cwd platform d.1 ≠
          dstPathOf cacheRoot cwd platform b.1 := by
        intro d hd hq
        exact hnotin (List.mem_map.mpr ⟨d, hd, hq⟩)
      constructor
      · rw [foldl_publish_links_of_ne cacheRoot cwd name info platform T _ _ hT,
          lookup_links_publishBinding]
        simp
      · refine foldl_publish_modes_preserve cacheRoot cwd name info platform T _ _
          (fun d hd => hds d (List.mem_cons_of_mem b hd)) ?_
        rw [lookup_modes_publishBinding]
        simp
    · exact ih _ hm (List.nodup_cons.mp hnd).2
        (fun d hd => hds d (List.mem_cons_of_mem c hd))

/-- After the publish loop has run over the merged binding list, every
binding passes the installed-state check. -/
theorem allChecks_after_publish (cacheRoot cwd : Path) (name : Name) (info : Tool)
    (platform : Platform) (L : List (String × String)) (fs : FS)
    (hwf : BindingsWF cacheRoot cwd name info platform L) :
    L.all (checkBinding cacheRoot cwd name info platform
      (L.foldl (publishBinding cacheRoot cwd name info platform) fs)) = true := by
  obtain ⟨hnd, hds, hnv1, hnv2, hnvdd, hbs⟩ := hwf
  refine List.all_eq_true.mpr (fun b hb => ?_)
  obtain ⟨hlink, hmode⟩ := foldl_publish_establishes cacheRoot cwd name info platform L fs b hb
    hnd (fun c hc => hds b hb c hc)
  by_cases hdocker : platform.OS = dockerOS
  · have hres := resolve_docker_link cacheRoot cwd name info platform b.1 b.2 hdocker
      hnv1 hnv2 hnvdd (hbs b hb).1 (hbs b hb).2
    simp [checkBinding, evalSymlinks, hlink, linkTargetOf, hdocker, hres, hmode]
  · simp [checkBinding, evalSymlinks, hlink, linkTargetOf, hdocker, hmode]

-- ---------------------------------------------------------------------------
-- Installer inversion lemmas
-- ---------------------------------------------------------------------------

theorem removeAllFS_absentUnder (td : Path) (fs : FS) :
    (removeAllFS td fs).absentUnder td := by
  refine ⟨?_, ?_, ?_, ?_⟩
  · intro p hp
    simpa using (List.mem_filter.mp hp).2
  · intro pr hpr
    simpa using (List.mem_filter.mp hpr).2
  · intro pr hpr
    simpa using (List.mem_filter.mp hpr).2
  · intro pr hpr
    simpa using (List.mem_filter.mp hpr).2

/-- When `install` returns an error even though the GET succeeded, the
filesystem it leaves behind has nothing under the tool directory. -/
theorem install_err_absent (cacheRoot cwd : Path) (name : Name) (info : Tool)
    (platform : Platform) (env : InstallEnv) (fs : FS)
    (hhttp : env.httpErr = none) (e : InstallErr) (fs2 : FS)
    (h : install cacheRoot cwd name info platform env fs = (.err e, fs2)) :
    fs2.absentUnder (toolDirPath cacheRoot name info platform) := by
  unfold install at h
  rw [hhttp] at h
  split at h
  · simp at h
  · split at h
    · contradiction
    · split at h
      · simp at h
      · split at h
        · have h2 := congrArg Prod.snd h
          simp only at h2
          rw [← h2]
          exact removeAllFS_absentUnder _ _
        · split at h
          all_goals
            first
            | (simp at h; done)
            | (have h2 := congrArg Prod.snd h
               simp only at h2
               rw [← h2]
               exact removeAllFS_absentUnder _ _)

/-- When `install` succeeds, the resulting filesystem is the publish loop
run over the merged binding list (from some intermediate state). -/
theorem install_ok_shape (cacheRoot cwd : Path) (name : Name) (info : Tool)
    (platform : Platform) (env : InstallEnv) (fs fs1 : FS) (source : Source)
    (hsrc : lookupAL info.Sources platform = some source)
    (h : install cacheRoot cwd name info platform env fs = (.ok, fs1)) :
    ∃ fs2, fs1 = (loAssign info.Binaries source.Binaries).foldl
      (publishBinding cacheRoot cwd name info platform) fs2 := by
  unfold install at h
  split at h
  · simp at h
  · rename_i src2 heq
    have hs2 : src2 = source := by
      have := heq.symm.trans hsrc
      injection this
    subst hs2
    split at h
    · simp at h
    · split at h
      · simp at h
      · split at h
        · simp at h
        · split at h
          all_goals
            first
            | (simp at h; done)
            | (have h2 := congrArg Prod.snd h
               simp only at h2
               exact ⟨_, h2.symm⟩)

theorem lookupAL_filter_keyPred_false {α β : Type} [DecidableEq α]
    (l : List (α × β)) (P : α → Bool) (k : α) (hk : P k = false) :
    lookupAL (l.filter (fun p => P p.1)) k = none := by
  induction l with
  | nil => rfl
  | cons hd t ih =>
    by_cases hp : P hd.1 = true
    · have hne : ¬ k = hd.1 := fun he => by rw [he, hp] at hk; cases hk
      simp [List.filter_cons, hp, lookupAL, hne, ih]
    · simp only [Bool.not_eq_true] at hp
      simp [List.filter_cons, hp, ih]

theorem lookupAL_filter_keyPred_true {α β : Type} [DecidableEq α]
    (l : List (α × β)) (P : α → Bool) (k : α) (hk : P k = true) :
    lookupAL (l.filter (fun p => P p.1)) k = lookupAL l k := by
  induction l with
  | nil => rfl
  | cons hd t ih =>
    by_cases hp : P hd.1 = true
    · simp [List.filter_cons, hp, lookupAL, ih]
    · simp only [Bool.not_eq_true] at hp
      have hne : ¬ k = hd.1 := fun he => by rw [he, hp] at hk; cases hk
      simp [List.filter_cons, hp, lookupAL, hne, ih]

-- ---------------------------------------------------------------------------
-- Claim theorems
-- ---------------------------------------------------------------------------

/-- C3: the effective binary mapping — computed by `loAssign info.Binaries
source.Binaries` in both the installed-state check (`ensurePlatform`, line
315) and binary publication (`install`, line 391) — equals the tool-level
map merged with the selected source's map: a key bound in the source-level
map resolves to its source-level value (source wins on collision), and any
other key resolves to its tool-level value.  The second conjunct is the
spec's own collision example. -/
theorem C3_effective_binaries_merge :
    (∀ (tb sb : List (String × String)) (k : String),
      lookupAL (loAssign tb sb) k =
        match lookupAL sb k with
        | some v => some v
        | none => lookupAL tb k) ∧
    lookupAL (loAssign [("bin/x", "a")] [("bin/x", "b")]) "bin/x" = some "b" := by
  constructor
  · intro tb sb k
    unfold loAssign
    rw [lookupAL_append]
    cases hsb : lookupAL sb k with
    | some v =>
      rw [lookupAL_filter_keyPred_false tb (fun x => (lookupAL sb x).isNone) k
        (by simp [hsb])]
    | none =>
      rw [lookupAL_filter_keyPred_true tb (fun x => (lookupAL sb x).isNone) k
        (by simp [hsb])]
      cases htb : lookupAL tb k <;> simp [hsb]
  · decide

/-- C10: calling `CopyToolBinaries` with an empty list of binary names
returns `nil` immediately and leaves the filesystem — including the
destination directory — untouched. -/
theorem C10_copy_empty_noop (cacheRoot : Path) (cat : List (Name × Tool))
    (goarch : String) (tool : Name) (path : Path) (fs : FS) :
    CopyToolBinaries cacheRoot cat goarch tool path [] fs = (.ok, fs) := by
  simp [CopyToolBinaries]

/-- C9: when some requested binary name is missing from the combined name
index, `CopyToolBinaries` fails with an error naming that binary and the
tool, and the filesystem is returned unchanged: no destination directory is
created and nothing is copied. -/
theorem C9_copy_missing_binary_fails
    (cacheRoot : Path) (cat : List (Name × Tool)) (goarch : String) (tool : Name)
    (path : Path) (binaryNames : List String) (fs : FS) (b : String)
    (hfind : binaryNames.find? (fun x =>
      (lookupAL (storedBinaryNames cat goarch tool) x).isNone) = some b) :
    CopyToolBinaries cacheRoot cat goarch tool path binaryNames fs =
      (.failed (.missingBinary b tool), fs) ∧
    renderCopyErr (.missingBinary b tool) =
      "the binary \"" ++ b ++ "\" doesn't exists for the requested tool \"" ++
        tool ++ "\"" := by
  refine ⟨?_, rfl⟩
  have hne : binaryNames ≠ [] := by
    intro he
    subst he
    simp at hfind
  unfold CopyToolBinaries
  rw [if_neg (by simpa using hne)]
  simp only [hfind]

/-- C1: with the GET succeeded (so the tool directory gets torn down and
recreated), every error return of `install` leaves nothing at or below the
version-qualified tool directory; in particular a digest mismatch returns
the checksum error carrying the tool name, expected digest, actual digest
and URL, whose rendered message names all four. -/
theorem C1_install_failure_atomicity
    (cacheRoot cwd : Path) (name : Name) (info : Tool) (platform : Platform)
    (env : InstallEnv) (fs : FS) (hhttp : env.httpErr = none) :
    (∀ e fs2, install cacheRoot cwd name info platform env fs = (.err e, fs2) →
      fs2.absentUnder (toolDirPath cacheRoot name info platform)) ∧
    (∀ source expected,
      lookupAL info.Sources platform = some source →
      hasher source.Hash = .ok expected →
      env.saveErr = none →
      env.actualChecksum ≠ expected →
      (install cacheRoot cwd name info platform env fs).1 =
        .err (.checksumMismatch name expected env.actualChecksum source.URL) ∧
      (install cacheRoot cwd name info platform env fs).2.absentUnder
        (toolDirPath cacheRoot name info platform) ∧
      renderInstallErr (.checksumMismatch name expected env.actualChecksum source.URL) =
        "checksum does not match for tool " ++ name ++ ", expected: " ++ expected ++
          ", actual: " ++ env.actualChecksum ++ ", url: " ++ source.URL) := by
  constructor
  · intro e fs2 h
    exact install_err_absent cacheRoot cwd name info platform env fs hhttp e fs2 h
  · intro source expected hsrc hh hsave hne
    have hred : install cacheRoot cwd name info platform env fs =
        (.err (.checksumMismatch name expected env.actualChecksum source.URL),
          removeAllFS (toolDirPath cacheRoot name info platform)
            { dirs := (addDir (toolDirPath cacheRoot name info platform)
                (removeAllFS (toolDirPath cacheRoot name info platform) fs)).dirs,
              links := (addDir (toolDirPath cacheRoot name info platform)
                (removeAllFS (toolDirPath cacheRoot name info platform) fs)).links,
              modes := env.savedFiles.foldl (fun m pr => setAL m pr.1 pr.2)
                (addDir (toolDirPath cacheRoot name info platform)
                  (removeAllFS (toolDirPath cacheRoot name info platform) fs)).modes,
              contents := (addDir (toolDirPath cacheRoot name info platform)
                (removeAllFS (toolDirPath cacheRoot name info platform) fs)).contents }) := by
      unfold install
      simp only [hsrc, hhttp, hh, hsave]
      simp [hne]
    rw [hred]
    exact ⟨rfl, removeAllFS_absentUnder _ _, rfl⟩

/-- Witness for C1 at a concrete input: a `cosmovisor` docker/amd64 install
whose payload hashes to `deadbeef` fails with the detailed checksum error
and leaves no `cosmovisor-1.3.0` directory. -/
theorem C1_install_failure_atomicity_witness :
    envBad.httpErr = none ∧
    envBad.actualChecksum ≠
      "34d7c9fbaa03f49b8278e13768d0fd82e28101dfa9625e25379c36a86d558826" ∧
    ((install cacheRootC cwdC "cosmovisor" cosmovisorTool dockerAMD64 envBad {}).1 =
        .err (.checksumMismatch "cosmovisor"
          "34d7c9fbaa03f49b8278e13768d0fd82e28101dfa9625e25379c36a86d558826"
          "deadbeef"
          "https://github.com/cosmos/cosmos-sdk/releases/download/cosmovisor%2Fv1.3.0/cosmovisor-v1.3.0-linux-amd64.tar.gz") ∧
      (install cacheRootC cwdC "cosmovisor" cosmovisorTool dockerAMD64 envBad {}).2.absentUnder
        (toolDirPath cacheRootC "cosmovisor" cosmovisorTool dockerAMD64) ∧
      renderInstallErr (.checksumMismatch "cosmovisor"
          "34d7c9fbaa03f49b8278e13768d0fd82e28101dfa9625e25379c36a86d558826"
          "deadbeef"
          "https://github.com/cosmos/cosmos-sdk/releases/download/cosmovisor%2Fv1.3.0/cosmovisor-v1.3.0-linux-amd64.tar.gz") =
        "checksum does not match for tool " ++ "cosmovisor" ++ ", expected: " ++
          "34d7c9fbaa03f49b8278e13768d0fd82e28101dfa9625e25379c36a86d558826" ++
          ", actual: " ++ "deadbeef" ++ ", url: " ++
          "https://github.com/cosmos/cosmos-sdk/releases/download/cosmovisor%2Fv1.3.0/cosmovisor-v1.3.0-linux-amd64.tar.gz") :=
  ⟨rfl, by decide,
    (C1_install_failure_atomicity cacheRootC cwdC "cosmovisor" cosmovisorTool dockerAMD64
        envBad {} rfl).2
      { URL := "https://github.com/cosmos/cosmos-sdk/releases/download/cosmovisor%2Fv1.3.0/cosmovisor-v1.3.0-linux-amd64.tar.gz",
        Hash := "sha256:34d7c9fbaa03f49b8278e13768d0fd82e28101dfa9625e25379c36a86d558826" }
      "34d7c9fbaa03f49b8278e13768d0fd82e28101dfa9625e25379c36a86d558826"
      (by decide) (by decide) rfl (by decide)⟩

/-- C2: if an `ensurePlatform` call returns `nil` (whether it installed or
found everything in place), an immediately following call for the same
(tool, platform) on the resulting filesystem passes every destination check
and returns `nil` without invoking `install` — hence without issuing any
network request. -/
theorem C2_ensure_idempotent
    (cacheRoot cwd : Path) (cat : List (Name × Tool)) (env env2 : InstallEnv)
    (fs0 fs1 : FS) (tool : Name) (platform : Platform) (info : Tool) (source : Source)
    (netUsed : Bool)
    (hcat : lookupAL cat tool = some info)
    (hsrc : lookupAL info.Sources platform = some source)
    (hwf : BindingsWF cacheRoot cwd tool info platform
      (loAssign info.Binaries source.Binaries))
    (h1 : ensurePlatform cacheRoot cwd cat env fs0 tool platform = (.ok, fs1, netUsed)) :
    ensurePlatform cacheRoot cwd cat env2 fs1 tool platform = (.ok, fs1, false) := by
  unfold ensurePlatform at h1 ⊢
  simp only [hcat, hsrc] at h1 ⊢
  by_cases hall : (loAssign info.Binaries source.Binaries).all
      (checkBinding cacheRoot cwd tool info platform fs0) = true
  · rw [if_pos hall] at h1
    have hfs : fs0 = fs1 := by
      have := congrArg (fun t => t.2.1) h1
      simpa using this
    subst hfs
    rw [if_pos hall]
  · rw [if_neg hall] at h1
    have ho : (install cacheRoot cwd tool info platform env fs0).1 = .ok := by
      have := congrArg (fun t => t.1) h1
      simpa using this
    have hf : (install cacheRoot cwd tool info platform env fs0).2 = fs1 := by
      have := congrArg (fun t => t.2.1) h1
      simpa using this
    have hinst : install cacheRoot cwd tool info platform env fs0 = (.ok, fs1) := by
      have : install cacheRoot cwd tool info platform env fs0 =
          ((install cacheRoot cwd tool info platform env fs0).1,
            (install cacheRoot cwd tool info platform env fs0).2) := rfl
      rw [this, ho, hf]
    obtain ⟨fs2, hshape⟩ :=
      install_ok_shape cacheRoot cwd tool info platform env fs0 fs1 source hsrc hinst
    subst hshape
    rw [if_pos (allChecks_after_publish cacheRoot cwd tool info platform _ fs2 hwf)]

/-- Witness for C2 at a concrete input: the first `ensure` of `go` on
linux/amd64 from an empty filesystem installs (network used), the second
returns `nil` with no network use and the same filesystem. -/
theorem C2_ensure_idempotent_witness :
    lookupAL tools "go" = some goTool ∧
    lookupAL goTool.Sources linuxAMD64 = some
      { URL := "https://go.dev/dl/go1.20.1.linux-amd64.tar.gz",
        Hash := "sha256:000a5b1fca4f75895f78befeb2eecf10bfff3c428597f3f1e69133b63b911b02" } ∧
    BindingsWF cacheRootC cwdC "go" goTool linuxAMD64
      (loAssign goTool.Binaries ([] : List (String × String))) ∧
    ensurePlatform cacheRootC cwdC tools envGoOK {} "go" linuxAMD64 =
      (.ok, fsGo1, true) ∧
    ensurePlatform cacheRootC cwdC tools envGoOK fsGo1 "go" linuxAMD64 =
      (.ok, fsGo1, false) :=
  ⟨by decide, by decide, by decide, by decide,
    C2_ensure_idempotent cacheRootC cwdC tools envGoOK envGoOK {} fsGo1 "go" linuxAMD64
      goTool
      { URL := "https://go.dev/dl/go1.20.1.linux-amd64.tar.gz",
        Hash := "sha256:000a5b1fca4f75895f78befeb2eecf10bfff3c428597f3f1e69133b63b911b02" }
      true (by decide) (by decide) (by decide) (by decide)⟩

/-- Witness for C9 at a concrete input: requesting the binary `bogus` of the
`gaia` tool fails naming both, touching nothing. -/
theorem C9_copy_missing_binary_fails_witness :
    (["bogus"].find? (fun x =>
      (lookupAL (storedBinaryNames tools "amd64" "gaia") x).isNone) = some "bogus") ∧
    CopyToolBinaries cacheRootC tools "amd64" "gaia" ["dest"] ["bogus"] {} =
      (.failed (.missingBinary "bogus" "gaia"), {}) :=
  ⟨by decide,
    (C9_copy_missing_binary_fails cacheRootC tools "amd64" "gaia" ["dest"] ["bogus"] {}
      "bogus" (by decide)).1⟩

/-- C4 counterexample: in `fsModes400` both `go` destinations resolve to the
expected artifacts, whose mode `0o400` does NOT have all of `0o700`; the
claim says the tool is then treated as not installed (so `ensurePlatform`
would call `install`), but the code treats it as installed: the call
returns `nil` with no install invoked and the filesystem unchanged. -/
theorem C4_mode_counterexample :
    ensurePlatform cacheRootC cwdC tools envGoOK fsModes400 "go" linuxAMD64 =
      (.ok, fsModes400, false) ∧
    (0o400 &&& 0o700 ≠ 0o700) := by decide

/-- C4 amended: the check treats a resolved destination as not installed
exactly when the resolved file's mode has NO owner bit (`mode & 0o700 == 0`,
line 339), not when it lacks some of them; with such a binding present,
`ensurePlatform` invokes `install`. -/
theorem C4_mode_zero_not_installed
    (cacheRoot cwd : Path) (cat : List (Name × Tool)) (env : InstallEnv) (fs : FS)
    (tool : Name) (platform : Platform) (info : Tool) (source : Source)
    (b : String × String) (m : Nat)
    (hcat : lookupAL cat tool = some info)
    (hsrc : lookupAL info.Sources platform = some source)
    (hb : b ∈ loAssign info.Binaries source.Binaries)
    (hresolve : evalSymlinks fs (dstPathOf cacheRoot cwd platform b.1) =
      some (srcPathOf cacheRoot tool info platform b.2))
    (hmode : lookupAL fs.modes (srcPathOf cacheRoot tool info platform b.2) = some m)
    (hm : m &&& 0o700 = 0) :
    (ensurePlatform cacheRoot cwd cat env fs tool platform).2.2 = true := by
  unfold ensurePlatform
  simp only [hcat, hsrc]
  have hcb : checkBinding cacheRoot cwd tool info platform fs b = false := by
    unfold checkBinding
    simp only [hresolve, hmode]
    simp [hm]
  have hall : ¬ ((loAssign info.Binaries source.Binaries).all
      (checkBinding cacheRoot cwd tool info platform fs) = true) := by
    intro hx
    have := List.all_eq_true.mp hx b hb
    rw [hcb] at this
    cases this
  rw [if_neg hall]

/-- Witness for the amended C4: with artifact mode `0o066` (no owner bit),
the `go` check fails and `ensurePlatform` invokes `install`. -/
theorem C4_mode_zero_not_installed_witness :
    lookupAL tools "go" = some goTool ∧
    (0o066 &&& 0o700 = 0) ∧
    (ensurePlatform cacheRootC cwdC tools envGoOK fsModes066 "go" linuxAMD64).2.2 = true :=
  ⟨by decide, by decide,
    C4_mode_zero_not_installed cacheRootC cwdC tools envGoOK fsModes066 "go" linuxAMD64
      goTool
      { URL := "https://go.dev/dl/go1.20.1.linux-amd64.tar.gz",
        Hash := "sha256:000a5b1fca4f75895f78befeb2eecf10bfff3c428597f3f1e69133b63b911b02" }
      ("bin/go", "go/bin/go") 0o066
      (by decide) (by decide) (by decide) (by decide) (by decide) (by decide)⟩

/-- C5 counterexample: extracting a regular-file entry with body `xy` over a
pre-existing six-byte file `abcdef` yields `xycdef`, not `xy`: the open at
line 480 has no `O_TRUNC`, so the tail of the longer pre-existing file
survives. -/
theorem C5_no_truncate_counterexample :
    untarRead [{ Typeflag := TypeReg, Name := "a", Body := "xy" }] "root" tarFSreg
      "root/a" = some "xycdef" ∧
    some "xycdef" ≠ some "xy" := by decide

theorem tarEnsureDir_files (file : String) (fs : TarFS) :
    (tarEnsureDir file fs).files = fs.files := by
  unfold tarEnsureDir
  split <;> rfl

theorem tarEnsureDir_inodes (file : String) (fs : TarFS) :
    (tarEnsureDir file fs).inodes = fs.inodes := by
  unfold tarEnsureDir
  split <;> rfl

/-- C5 amended: a regular-file entry whose path already holds a file with
content `old` is opened without truncation and the entry's bytes are
written from offset 0, leaving `h.Body ++ old.drop h.Body.length` — equal
to the entry's bytes only when the prior content is no longer than them. -/
theorem C5_reg_write_no_truncate (path : String) (fs : TarFS) (h : TarHeader)
    (old : String) (hreg : h.Typeflag = TypeReg)
    (hexist : readFile fs (path ++ "/" ++ h.Name) = some old) :
    ∃ fs2, untarStep path fs h = .ok fs2 ∧
      readFile fs2 (path ++ "/" ++ h.Name) =
        some (h.Body ++ old.drop h.Body.length) := by
  unfold readFile at hexist
  cases hino : lookupAL fs.files (path ++ "/" ++ h.Name) with
  | none => rw [hino] at hexist; cases hexist
  | some ino =>
    rw [hino] at hexist
    have hex2 : lookupAL fs.inodes ino = some old := hexist
    unfold untarStep
    rw [hreg]
    simp only [TypeReg, TypeDir]
    norm_num
    rw [tarEnsureDir_files, tarEnsureDir_inodes, hino]
    refine ⟨_, rfl, ?_⟩
    unfold readFile
    simp only [tarEnsureDir_files, hino]
    rw [lookupAL_setAL]
    simp [hex2]

/-- Witness for the amended C5: over `tarFSreg` (file `root/a` = `abcdef`),
the entry `a` with body `xy` leaves `xycdef`. -/
theorem C5_reg_write_no_truncate_witness :
    readFile tarFSreg ("root" ++ "/" ++ "a") = some "abcdef" ∧
    (∃ fs2, untarStep "root" tarFSreg { Typeflag := TypeReg, Name := "a", Body := "xy" } =
        .ok fs2 ∧
      readFile fs2 ("root" ++ "/" ++ "a") =
        some ("xy" ++ "abcdef".drop "xy".length)) :=
  ⟨by decide,
    C5_reg_write_no_truncate "root" tarFSreg { Typeflag := TypeReg, Name := "a", Body := "xy" }
      "abcdef" (by decide) (by decide)⟩

/-- C6 counterexample: installing `cosmovisor` (destination
`bin/cosmovisor`, two path segments) creates the relative target
`../cosmovisor-1.3.0/cosmovisor` — `../` once per `/` — while the claim's
"once per path segment" reading would give
`../../cosmovisor-1.3.0/cosmovisor`. -/
theorem C6_link_target_counterexample :
    lookupAL instCosm.2.links (dstPathOf cacheRootC cwdC dockerAMD64 "bin/cosmovisor") =
      some (.rel "../cosmovisor-1.3.0/cosmovisor") ∧
    claimLinkTargetPerSegment "cosmovisor" cosmovisorTool "bin/cosmovisor" "cosmovisor" =
      "../../cosmovisor-1.3.0/cosmovisor" ∧
    ("../cosmovisor-1.3.0/cosmovisor" : String) ≠
      "../../cosmovisor-1.3.0/cosmovisor" := by decide

/-- C6 amended: after a successful install, every docker destination holds a
relative symlink whose target is `../` repeated once per `/` in the
destination (one less than its segment count), then
`<tool>-<version>/<source>`; every local destination holds an absolute
symlink to the artifact path. -/
theorem C6_link_targets (cacheRoot cwd : Path) (name : Name) (info : Tool)
    (platform : Platform) (env : InstallEnv) (fs fs1 : FS) (source : Source)
    (hsrc : lookupAL info.Sources platform = some source)
    (hwf : BindingsWF cacheRoot cwd name info platform
      (loAssign info.Binaries source.Binaries))
    (hinst : install cacheRoot cwd name info platform env fs = (.ok, fs1)) :
    ∀ b ∈ loAssign info.Binaries source.Binaries,
      lookupAL fs1.links (dstPathOf cacheRoot cwd platform b.1) =
        some (linkTargetOf cacheRoot name info platform b) ∧
      (platform.OS = dockerOS →
        linkTargetOf cacheRoot name info platform b =
          .rel (srcLinkPath name info b.1 b.2) ∧
        segs (srcLinkPath name info b.1 b.2) =
          List.replicate (countSlash b.1) ".." ++
            [name ++ "-" ++ info.Version] ++ segs b.2) ∧
      (platform.OS ≠ dockerOS →
        linkTargetOf cacheRoot name info platform b =
          .abs (srcPathOf cacheRoot name info platform b.2)) := by
  obtain ⟨hnd, hds, hnv1, hnv2, hnvdd, hbs⟩ := hwf
  intro b hb
  obtain ⟨fs2, hshape⟩ :=
    install_ok_shape cacheRoot cwd name info platform env fs fs1 source hsrc hinst
  subst hshape
  refine ⟨(foldl_publish_establishes cacheRoot cwd name info platform _ fs2 b hb hnd
    (fun c hc => hds b hb c hc)).1, ?_, ?_⟩
  · intro hdocker
    exact ⟨by simp [linkTargetOf, hdocker],
      segs_srcLinkPath name info b.1 b.2 hnv1 hnv2 (hbs b hb).1⟩
  · intro hdocker
    simp [linkTargetOf, hdocker]

/-- Witness for the amended C6: the installed `cosmovisor` docker binding
carries the relative one-`../` target, and its segment decomposition. -/
theorem C6_link_targets_witness :
    install cacheRootC cwdC "cosmovisor" cosmovisorTool dockerAMD64 envCosmOK {} =
      (.ok, instCosm.2) ∧
    lookupAL instCosm.2.links (dstPathOf cacheRootC cwdC dockerAMD64 "bin/cosmovisor") =
      some (.rel (srcLinkPath "cosmovisor" cosmovisorTool "bin/cosmovisor" "cosmovisor")) ∧
    segs (srcLinkPath "cosmovisor" cosmovisorTool "bin/cosmovisor" "cosmovisor") =
      List.replicate (countSlash "bin/cosmovisor") ".." ++
        ["cosmovisor" ++ "-" ++ cosmovisorTool.Version] ++ segs "cosmovisor" :=
  ⟨by decide,
    by
      have h := C6_link_targets cacheRootC cwdC "cosmovisor" cosmovisorTool dockerAMD64
        envCosmOK {} instCosm.2
        { URL := "https://github.com/cosmos/cosmos-sdk/releases/download/cosmovisor%2Fv1.3.0/cosmovisor-v1.3.0-linux-amd64.tar.gz",
          Hash := "sha256:34d7c9fbaa03f49b8278e13768d0fd82e28101dfa9625e25379c36a86d558826" }
        (by decide) (by decide) (by decide) ("bin/cosmovisor", "cosmovisor") (by decide)
      exact h.1.trans (by rw [(h.2.1 rfl).1]),
    by
      have h := C6_link_targets cacheRootC cwdC "cosmovisor" cosmovisorTool dockerAMD64
        envCosmOK {} instCosm.2
        { URL := "https://github.com/cosmos/cosmos-sdk/releases/download/cosmovisor%2Fv1.3.0/cosmovisor-v1.3.0-linux-amd64.tar.gz",
          Hash := "sha256:34d7c9fbaa03f49b8278e13768d0fd82e28101dfa9625e25379c36a86d558826" }
        (by decide) (by decide) (by decide) ("bin/cosmovisor", "cosmovisor") (by decide)
      exact (h.2.1 rfl).2⟩

/-- C7 counterexample: requesting a tool absent from the catalog does NOT
panic; `ensurePlatform` returns an ordinary error value (`errors.Errorf`,
line 306), refuting the claim that both configuration errors are raised as
panics. -/
theorem C7_tool_not_defined_counterexample :
    ensurePlatform cacheRootC cwdC tools envGoOK {} "no-such-tool" linuxAMD64 =
      (.err (.toolNotDefined "no-such-tool"), {}, false) := by decide

/-- C7 amended: of the two configuration errors, a tool missing from the
catalog is returned as an ordinary error, while a platform missing from the
tool's sources panics. -/
theorem C7_config_error_kinds (cacheRoot cwd : Path) (cat : List (Name × Tool))
    (env : InstallEnv) (fs : FS) (tool : Name) (platform : Platform) :
    (lookupAL cat tool = none →
      ensurePlatform cacheRoot cwd cat env fs tool platform =
        (.err (.toolNotDefined tool), fs, false)) ∧
    (∀ info, lookupAL cat tool = some info →
      lookupAL info.Sources platform = none →
      ensurePlatform cacheRoot cwd cat env fs tool platform =
        (.panicked ("tool " ++ tool ++ " is not configured for platform " ++
          platform.str), fs, false)) := by
  constructor
  · intro h
    unfold ensurePlatform
    rw [h]
  · intro info h1 h2
    unfold ensurePlatform
    rw [h1]
    simp only [h2]

/-- Witness for the amended C7: `no-such-tool` yields the error return;
`go` on the docker platform (absent from its sources) panics. -/
theorem C7_config_error_kinds_witness :
    lookupAL tools "no-such-tool" = none ∧
    ensurePlatform cacheRootC cwdC tools envGoOK {} "no-such-tool" darwinAMD64 =
      (.err (.toolNotDefined "no-such-tool"), {}, false) ∧
    lookupAL tools "go" = some goTool ∧
    lookupAL goTool.Sources dockerAMD64 = none ∧
    ensurePlatform cacheRootC cwdC tools envGoOK {} "go" dockerAMD64 =
      (.panicked ("tool " ++ "go" ++ " is not configured for platform " ++
        dockerAMD64.str), {}, false) :=
  ⟨by decide,
    (C7_config_error_kinds cacheRootC cwdC tools envGoOK {} "no-such-tool" darwinAMD64).1
      (by decide),
    by decide, by decide,
    (C7_config_error_kinds cacheRootC cwdC tools envGoOK {} "go" dockerAMD64).2 goTool
      (by decide) (by decide)⟩

/-- C8: extracting the four-kind archive (hardlink entry before its
target's regular entry) reproduces the directory, the regular file and the
symlink, but NOT the hardlink: `untar` never prefixes `header.Linkname`
with the destination path, so the empty placeholder is created at the
working-directory-relative path `d/f2`, the hardlink `root/d/l` is linked
to THAT inode (which stays empty), and the target's later entry writes
`BBB` to a fresh inode at `root/d/f2` — the two names end on different
inodes with different content, contradicting the code's own comment that
the placeholder "will be overwritten later". -/
theorem C8_hardlink_wrong_target :
    untarDir archFour "root" {} "root/d" = some 0o755 ∧
    untarRead archFour "root" {} "root/d/f1" = some "AAA" ∧
    untarSym archFour "root" {} "root/d/s" = some "f1" ∧
    untarRead archFour "root" {} "root/d/f2" = some "BBB" ∧
    untarRead archFour "root" {} "root/d/l" = some "" ∧
    untarRead archFour "root" {} "root/d/l" ≠ untarRead archFour "root" {} "root/d/f2" ∧
    untarInode archFour "root" {} "root/d/l" ≠ untarInode archFour "root" {} "root/d/f2" ∧
    untarRead archFour "root" {} "d/f2" = some "" := by decide

end Crust
